import Mathlib

/-!
# Verification of the Spot catalog service (src/main.go)

A shallow embedding of the Spot record lifecycle and query service: the
`Spot` data model, the backing table, and the seven operations that the
HTTP handlers in `src/main.go` perform on it (list, search, create/add,
recommend, update, delete, batch delete).

Modelling conventions:
* The backing SQLite table is a `Table`: a list of rows in insertion
  order plus the storage's next auto-increment primary key.
* Go `uint` ids become `Nat`; the Go `int` recommendation counter
  becomes `Int`, and the handler's `spot.RecommendCount++` is embedded
  as `incInt64`, the two's-complement 64-bit increment: it adds one and
  reduces modulo `2^64` into `[-2^63, 2^63)`, so incrementing the
  stored maximum `2^63 - 1` wraps to `-2^63` exactly as the Go `int`
  (and the persisted SQLite int64 column) does.
* `ORDER BY recommend_count desc, id asc` is the relation `spotLE`;
  the `SELECT ... ORDER BY` is embedded as `insertionSort spotLE`.
* The SQL `LIKE '%q%'` filter of the search handler is embedded as
  literal substring containment (`subMatch`), following the pattern
  `'%' + query + '%'` built by the handler; the storage engine's ASCII
  case folding and wildcard characters inside `query` are engine
  behavior outside the embedding.
* `db.First(&spot, id)` is `firstById`; `db.Save(&spot)` is `saveSpot`
  (writes every column of the row whose primary key matches);
  `db.Model(&spot).Updates(Spot{...})` is embedded with GORM's
  documented struct semantics: zero-valued fields (empty strings, the
  zero `RecommendCount`, the zero `ID`) are skipped, non-zero fields
  are written.
* Each handler returns the new table together with an `Outcome`:
  `.notFound` for the update handler's 404 response, `.ok` for the
  redirect every other path takes.
-/

/-- The `Spot` struct of src/main.go: one tourist attraction row. -/
structure Spot where
  ID : Nat
  Name : String
  Description : String
  Ticket : String
  Transport : String
  RecommendCount : Int
  ImageURL : String
deriving DecidableEq, Repr

/-- The form fields read by the add and update handlers
(`c.PostForm` yields `""` when a field is absent). -/
structure Fields where
  name : String
  description : String
  ticket : String
  transport : String
  imageurl : String
deriving DecidableEq, Repr

/-- The backing table: rows in insertion order, plus the next
auto-increment primary key the storage will assign. -/
structure Table where
  rows : List Spot
  nextId : Nat
deriving DecidableEq, Repr

/-- What a handler reports back: the update handler answers 404
(`notFound`) when the id is absent; every other path redirects (`ok`). -/
inductive Outcome where
  | ok
  | notFound
deriving DecidableEq, Repr

/-- The ordering `ORDER BY recommend_count desc, id asc` used by the
listing and search handlers: higher counter first, ties by id ascending. -/
def spotLE (a b : Spot) : Prop :=
  b.RecommendCount < a.RecommendCount ∨
    (a.RecommendCount = b.RecommendCount ∧ a.ID ≤ b.ID)

instance : DecidableRel spotLE := fun a b => by
  unfold spotLE; infer_instance

instance : IsTotal Spot spotLE where
  total a b := by
    rcases lt_trichotomy a.RecommendCount b.RecommendCount with h | h | h
    · exact Or.inr (Or.inl h)
    · rcases Nat.le_total a.ID b.ID with h' | h'
      · exact Or.inl (Or.inr ⟨h, h'⟩)
      · exact Or.inr (Or.inr ⟨h.symm, h'⟩)
    · exact Or.inl (Or.inl h)

instance : IsTrans Spot spotLE where
  trans a b c hab hbc := by
    rcases hab with h1 | ⟨h1, h1'⟩ <;> rcases hbc with h2 | ⟨h2, h2'⟩
    · exact Or.inl (h2.trans h1)
    · exact Or.inl (h2 ▸ h1)
    · exact Or.inl (h1 ▸ h2)
    · exact Or.inr ⟨h1.trans h2, h1'.trans h2'⟩

/-- `leadMatch q s` holds when `q` is an initial segment of `s`
(character lists of the two strings). -/
def leadMatch : List Char → List Char → Bool
  | [], _ => true
  | _ :: _, [] => false
  | c :: cs, d :: ds => c = d && leadMatch cs ds

/-- `subMatch q s` holds when `q` occurs contiguously somewhere in `s`:
the embedding of the `LIKE '%q%'` filter. -/
def subMatch : List Char → List Char → Bool
  | q, [] => leadMatch q []
  | q, d :: ds => leadMatch q (d :: ds) || subMatch q ds

/-- One disjunct of the search handler's WHERE clause:
`name LIKE '%q%' OR description LIKE '%q%'`. -/
def spotMatches (q : String) (r : Spot) : Bool :=
  subMatch q.data r.Name.data || subMatch q.data r.Description.data

/-- The GET "/" handler: all rows,
`ORDER BY recommend_count desc, id asc`. -/
def list (t : Table) : List Spot :=
  List.insertionSort spotLE t.rows

/-- The GET "/search" handler: empty query returns everything; otherwise
rows whose name or description matches `%q%`, same ordering as `list`. -/
def search (q : String) (t : Table) : List Spot :=
  if q = "" then
    List.insertionSort spotLE t.rows
  else
    List.insertionSort spotLE (t.rows.filter (fun r => spotMatches q r))

/-- The POST "/add" handler: `db.Create` inserts one new row with the
form fields, `RecommendCount: 0`, and the storage-assigned id. -/
def newSpot (f : Fields) (i : Nat) : Spot :=
  { ID := i, Name := f.name, Description := f.description,
    Ticket := f.ticket, Transport := f.transport,
    RecommendCount := 0, ImageURL := f.imageurl }

def create (f : Fields) (t : Table) : Table :=
  { rows := t.rows ++ [newSpot f t.nextId], nextId := t.nextId + 1 }

/-- `db.First(&spot, id)`: the row whose primary key equals `id`, if any. -/
def firstById (t : Table) (i : Nat) : Option Spot :=
  t.rows.find? (fun r => r.ID == i)

/-- `db.Save(&spot)`: write every column of `s` into the row whose
primary key equals `s.ID`. -/
def saveSpot (t : Table) (s : Spot) : Table :=
  { t with rows := t.rows.map (fun r => if r.ID == s.ID then s else r) }

/-- The int64 bounds of the Go `int` counter field:
`-9223372036854775808 = -2^63` and `9223372036854775807 = 2^63 - 1`. -/
def int64Min : Int := -9223372036854775808

def int64Max : Int := 9223372036854775807

/-- Go's `x++` on a 64-bit `int`: add one and wrap by two's-complement,
i.e. reduce modulo `2^64 = 18446744073709551616` into `[-2^63, 2^63)`. -/
def incInt64 (n : Int) : Int :=
  (n + 1 + 9223372036854775808) % 18446744073709551616 - 9223372036854775808

/-- The POST "/recommend/:id" handler: look the row up; if found,
increment its counter in memory (Go `int` increment, wrapping at the
type maximum) and `Save` it back; either way redirect. -/
def recommend (i : Nat) (t : Table) : Table × Outcome :=
  match firstById t i with
  | some s => (saveSpot t { s with RecommendCount := incInt64 s.RecommendCount }, .ok)
  | none => (t, .ok)

/-- GORM's `Updates(Spot{...})` on one row: a struct update skips
zero-valued fields, so an empty-string form field leaves the stored
column unchanged, and neither `ID` nor `RecommendCount` (both zero in
the struct literal) is ever written. -/
def applyUpdates (f : Fields) (r : Spot) : Spot :=
  { r with
    Name := if f.name = "" then r.Name else f.name,
    Description := if f.description = "" then r.Description else f.description,
    Ticket := if f.ticket = "" then r.Ticket else f.ticket,
    Transport := if f.transport = "" then r.Transport else f.transport,
    ImageURL := if f.imageurl = "" then r.ImageURL else f.imageurl }

/-- The POST "/update/:id" handler: 404 when the id is absent; otherwise
`db.Model(&spot).Updates(Spot{...})` on the row with that primary key. -/
def update (i : Nat) (f : Fields) (t : Table) : Table × Outcome :=
  match firstById t i with
  | none => (t, .notFound)
  | some _ =>
      ({ t with rows := t.rows.map (fun r => if r.ID == i then applyUpdates f r else r) },
       .ok)

/-- The POST "/delete/:id" handler: `db.Delete(&Spot{}, id)` removes the
row with that primary key; redirect regardless. -/
def deleteSpot (i : Nat) (t : Table) : Table × Outcome :=
  ({ t with rows := t.rows.filter (fun r => !(r.ID == i)) }, .ok)

/-- The POST "/batchdelete" handler: with a non-empty id list, delete
`WHERE id IN (...)`; an empty form array skips the delete entirely. -/
def batchDelete (ids : List Nat) (t : Table) : Table × Outcome :=
  (if ids.isEmpty then t
   else { t with rows := t.rows.filter (fun r => !(ids.contains r.ID)) },
   .ok)

/-- The recommendation counter currently stored under id `i`. -/
def countOf (t : Table) (i : Nat) : Option Int :=
  (firstById t i).map Spot.RecommendCount

/-- The read half of the recommend handler: `db.First(&spot, id)` into
the handler's local variable. -/
def recRead (t : Table) (i : Nat) : Option Spot :=
  firstById t i

/-- The write half of the recommend handler: `spot.RecommendCount++`
on the handler's local copy, then `db.Save(&spot)`. The two halves are
separate storage calls with no enclosing transaction, so other requests
can run between them. -/
def recWrite (t : Table) (s : Spot) : Table :=
  saveSpot t { s with RecommendCount := incInt64 s.RecommendCount }

/-- A concrete table in the shape of the seeded database: two rows with
distinct ids and zero counters, next auto-increment key 3. -/
def demoSpot1 : Spot :=
  { ID := 1, Name := "West Lake", Description := "Famous lake in Hangzhou",
    Ticket := "Free", Transport := "Bus", RecommendCount := 0, ImageURL := "" }

def demoSpot2 : Spot :=
  { ID := 2, Name := "Huangshan", Description := "Famous mountain",
    Ticket := "230", Transport := "Rail and bus", RecommendCount := 0, ImageURL := "" }

def demoTable : Table :=
  { rows := [demoSpot1, demoSpot2], nextId := 3 }

/-- A concrete form submission: a new name, every other field left empty. -/
def demoFields : Fields :=
  { name := "X", description := "", ticket := "", transport := "", imageurl := "" }

/-- A one-row table whose stored counter is the largest value the Go
`int` column can hold: the state at which `x++` wraps. -/
def maxSpot : Spot :=
  { ID := 1, Name := "Saturated", Description := "", Ticket := "",
    Transport := "", RecommendCount := int64Max, ImageURL := "" }

def maxTable : Table :=
  { rows := [maxSpot], nextId := 2 }

/-! ## Supporting lemmas -/

theorem leadMatch_iff : ∀ q s : List Char, (leadMatch q s = true ↔ ∃ u, s = q ++ u)
  | [], s => by simp [leadMatch]
  | c :: cs, [] => by simp [leadMatch]
  | c :: cs, d :: ds => by
    simp only [leadMatch, Bool.and_eq_true, decide_eq_true_eq, List.cons_append,
      List.cons.injEq]
    constructor
    · rintro ⟨rfl, h⟩
      obtain ⟨u, rfl⟩ := (leadMatch_iff cs ds).mp h
      exact ⟨u, rfl, rfl⟩
    · rintro ⟨u, rfl, rfl⟩
      exact ⟨rfl, (leadMatch_iff cs _).mpr ⟨u, rfl⟩⟩

theorem subMatch_iff : ∀ q s : List Char, (subMatch q s = true ↔ ∃ u v, s = u ++ q ++ v)
  | q, [] => by
    simp only [subMatch, leadMatch_iff]
    constructor
    · rintro ⟨u, hu⟩
      exact ⟨[], u, by simpa using hu⟩
    · rintro ⟨u, v, huv⟩
      have h3 : u = [] ∧ q = [] ∧ v = [] := by simpa using huv.symm
      obtain ⟨rfl, rfl, rfl⟩ := h3
      exact ⟨[], rfl⟩
  | q, d :: ds => by
    simp only [subMatch, Bool.or_eq_true, leadMatch_iff, subMatch_iff q ds]
    constructor
    · rintro (⟨u, hu⟩ | ⟨u, v, huv⟩)
      · exact ⟨[], u, by simpa using hu⟩
      · exact ⟨d :: u, v, by simp [huv]⟩
    · rintro ⟨u, v, huv⟩
      cases u with
      | nil => exact Or.inl ⟨v, by simpa using huv⟩
      | cons e u' =>
        rw [List.cons_append, List.cons_append, List.cons.injEq] at huv
        exact Or.inr ⟨u', v, huv.2⟩

theorem subMatch_nil_left : ∀ s : List Char, subMatch [] s = true
  | [] => rfl
  | _ :: _ => by simp [subMatch, leadMatch]

theorem spotMatches_empty (r : Spot) : spotMatches "" r = true := by
  simp [spotMatches, subMatch_nil_left]

/-- `find?` by id commutes with mapping an id-preserving function over
the rows. -/
theorem find?_map_of_id_eq (g : Spot → Spot) (hg : ∀ r, (g r).ID = r.ID) (j : Nat) :
    ∀ l : List Spot,
      (l.map g).find? (fun r => r.ID == j) = (l.find? (fun r => r.ID == j)).map g
  | [] => rfl
  | r :: l => by
    by_cases h : r.ID = j
    · rw [List.map_cons,
        @List.find?_cons_of_pos Spot (fun r => r.ID == j) (g r) (l.map g) (by simp [hg, h]),
        @List.find?_cons_of_pos Spot (fun r => r.ID == j) r l (by simpa using h),
        Option.map_some']
    · rw [List.map_cons,
        @List.find?_cons_of_neg Spot (fun r => r.ID == j) (g r) (l.map g) (by simp [hg, h]),
        @List.find?_cons_of_neg Spot (fun r => r.ID == j) r l (by simpa using h),
        find?_map_of_id_eq g hg j l]

/-- `find?` by id through a filter whose predicate depends only on the id:
the first row with that id either survives (and is still the first) or
every row with that id is gone. -/
theorem find?_filter_of_id_det (k : Spot → Bool)
    (hk : ∀ r r', r.ID = r'.ID → k r = k r') (j : Nat) :
    ∀ l : List Spot, ∀ r₀ : Spot, l.find? (fun r => r.ID == j) = some r₀ →
      (l.filter k).find? (fun r => r.ID == j) = if k r₀ then some r₀ else none
  | [], r₀, h => by simp at h
  | r :: l, r₀, h => by
    by_cases hr : r.ID = j
    · rw [List.find?_cons_of_pos _ (by simpa using hr)] at h
      have h0 : r₀ = r := by simpa using h.symm
      subst h0
      by_cases hkr : k r₀ = true
      · rw [List.filter_cons_of_pos hkr, List.find?_cons_of_pos _ (by simpa using hr),
          if_pos hkr]
      · rw [List.filter_cons_of_neg (by simpa using hkr), if_neg hkr]
        rw [List.find?_eq_none]
        intro x hx hxj
        have hxl := (List.mem_filter.mp hx).2
        have : k x = k r₀ := hk x r₀ (by simp_all)
        simp_all
    · rw [List.find?_cons_of_neg _ (by simpa using hr)] at h
      by_cases hkr : k r = true
      · rw [List.filter_cons_of_pos hkr, List.find?_cons_of_neg _ (by simpa using hr)]
        exact find?_filter_of_id_det k hk j l r₀ h
      · rw [List.filter_cons_of_neg (by simpa using hkr)]
        exact find?_filter_of_id_det k hk j l r₀ h

/-- Two sorted permutations of a table with pairwise-distinct ids are
equal: the dual-key order determines the listing uniquely. -/
theorem sorted_perm_nodup_ids_eq : ∀ {l₁ l₂ : List Spot}, l₁.Perm l₂ →
    l₁.Sorted spotLE → l₂.Sorted spotLE → (l₁.map Spot.ID).Nodup → l₁ = l₂
  | [], l₂, hp, _, _, _ => hp.symm.eq_nil.symm
  | a :: t₁, l₂, hp, hs₁, hs₂, hd => by
    cases l₂ with
    | nil => exact absurd hp.eq_nil (by simp)
    | cons b t₂ =>
      by_cases hab : a = b
      · subst hab
        rw [sorted_perm_nodup_ids_eq hp.cons_inv hs₁.of_cons hs₂.of_cons
          (by simpa using (List.nodup_cons.mp (by simpa using hd)).2)]
      · exfalso
        have ha2 : a ∈ t₂ := by
          rcases List.mem_cons.mp (hp.subset (List.mem_cons_self a t₁)) with h | h
          · exact absurd h hab
          · exact h
        have hb1 : b ∈ t₁ := by
          rcases List.mem_cons.mp (hp.symm.subset (List.mem_cons_self b t₂)) with h | h
          · exact absurd h.symm hab
          · exact h
        have h1 : spotLE a b := List.rel_of_sorted_cons hs₁ b hb1
        have h2 : spotLE b a := List.rel_of_sorted_cons hs₂ a ha2
        have hid : a.ID = b.ID := by
          rcases h1 with h | ⟨h, h'⟩ <;> rcases h2 with g | ⟨g, g'⟩ <;> omega
        have hmem : b.ID ∈ t₁.map Spot.ID := List.mem_map_of_mem Spot.ID hb1
        have hnot : a.ID ∉ t₁.map Spot.ID :=
          (List.nodup_cons.mp (by simpa using hd)).1
        rw [hid] at hnot
        exact hnot hmem

/-- Sorting after filtering equals filtering after sorting, when the
table's ids are pairwise distinct. -/
theorem insertionSort_filter_comm (p : Spot → Bool) (l : List Spot)
    (hd : (l.map Spot.ID).Nodup) :
    List.insertionSort spotLE (l.filter p) =
      (List.insertionSort spotLE l).filter p := by
  apply sorted_perm_nodup_ids_eq
  · exact (List.perm_insertionSort spotLE (l.filter p)).trans
      (((List.perm_insertionSort spotLE l).filter p).symm)
  · exact List.sorted_insertionSort spotLE (l.filter p)
  · exact List.Pairwise.filter p (List.sorted_insertionSort spotLE l)
  · have h1 : ((l.filter p).map Spot.ID).Nodup :=
      hd.sublist ((List.filter_sublist l).map Spot.ID)
    exact (((List.perm_insertionSort spotLE (l.filter p)).map Spot.ID).nodup_iff).mpr h1

/-- `db.Save` rewrites exactly the rows whose primary key matches the
saved struct; looking a row up afterwards sees that rewrite. -/
theorem firstById_saveSpot (t : Table) (s : Spot) (j : Nat) :
    firstById (saveSpot t s) j =
      (firstById t j).map (fun r => if r.ID == s.ID then s else r) := by
  unfold firstById saveSpot
  refine find?_map_of_id_eq _ ?_ j t.rows
  intro r
  by_cases hb : (r.ID == s.ID) = true
  · simp only [hb, if_true]
    exact (eq_of_beq hb).symm
  · simp only [Bool.not_eq_true] at hb
    simp [hb]

/-- Creating a row never disturbs the row stored under an existing id. -/
theorem countOf_create_of_some (f : Fields) (t : Table) (j : Nat) (r₀ : Spot)
    (h : firstById t j = some r₀) :
    countOf (create f t) j = some r₀.RecommendCount := by
  unfold firstById at h
  unfold countOf firstById create
  rw [List.find?_append, h]
  rfl

/-- The update handler never touches any stored recommendation counter. -/
theorem countOf_update_eq (t : Table) (i : Nat) (f : Fields) (j : Nat) :
    countOf (update i f t).1 j = countOf t j := by
  rcases hfi : firstById t i with _ | s
  · simp [update, hfi]
  · simp only [update, hfi]
    unfold countOf firstById
    rw [find?_map_of_id_eq (fun r => if r.ID == i then applyUpdates f r else r)
      ?hg j t.rows]
    case hg =>
      intro r
      by_cases hb : (r.ID == i) = true
      · simp only [hb, if_true]
        rfl
      · simp only [Bool.not_eq_true] at hb
        simp [hb]
    rcases hj : t.rows.find? (fun r => r.ID == j) with _ | r₀ <;> rw [hj]
    · rfl
    · simp only [Option.map_some']
      split <;> rfl

/-- The recommend handler leaves every counter alone except the target
id's, which it increments by one. -/
theorem countOf_recommend_of_some (t : Table) (i j : Nat) (r₀ : Spot)
    (h : firstById t j = some r₀) :
    countOf (recommend i t).1 j =
      some (if j = i then incInt64 r₀.RecommendCount else r₀.RecommendCount) := by
  rcases hfi : firstById t i with _ | s
  · have hji : ¬ j = i := by
      intro hji; subst hji; rw [h] at hfi; cases hfi
    have ht' : (recommend i t).1 = t := by simp [recommend, hfi]
    rw [ht', if_neg hji]
    unfold countOf
    rw [h, Option.map_some']
  · have hsID : s.ID = i := by simpa using List.find?_some hfi
    have hrID : r₀.ID = j := by simpa using List.find?_some h
    have ht' : (recommend i t).1 =
        saveSpot t { s with RecommendCount := incInt64 s.RecommendCount } := by
      simp [recommend, hfi]
    rw [ht', countOf, firstById_saveSpot, h, Option.map_some', Option.map_some']
    by_cases hji : j = i
    · subst hji
      rw [h] at hfi
      obtain rfl : r₀ = s := by injection hfi
      simp
    · have hb : (r₀.ID == ({ s with RecommendCount := incInt64 s.RecommendCount } : Spot).ID)
        = false := by
        show (r₀.ID == s.ID) = false
        simp only [beq_eq_false_iff_ne, ne_eq]
        intro hc
        exact hji (by rw [← hrID, hc, hsID])
      rw [if_neg (by simp [hb]), if_neg hji]

/-- Deleting id `i`: the row under `j` keeps its counter exactly when
`j ≠ i`; otherwise it is gone. -/
theorem countOf_deleteSpot_of_some (t : Table) (i j : Nat) (r₀ : Spot)
    (h : firstById t j = some r₀) :
    countOf (deleteSpot i t).1 j =
      if j = i then none else some r₀.RecommendCount := by
  have hrID : r₀.ID = j := by simpa using List.find?_some h
  unfold firstById at h
  unfold countOf firstById deleteSpot
  rw [find?_filter_of_id_det (fun r => !(r.ID == i))
    (by intro r r' hrr; show (!(r.ID == i)) = (!(r'.ID == i)); rw [hrr]) j
    t.rows r₀ h]
  by_cases hji : j = i
  · subst hji
    rw [if_neg (by simp [hrID]), if_pos rfl]
    rfl
  · rw [if_pos (by simp [hrID, hji]), if_neg hji]
    rfl

/-- Batch-deleting `ids`: the row under `j` keeps its counter exactly
when `j` is not among `ids`; otherwise it is gone. -/
theorem countOf_batchDelete_of_some (ids : List Nat) (t : Table) (j : Nat) (r₀ : Spot)
    (h : firstById t j = some r₀) :
    countOf (batchDelete ids t).1 j =
      if j ∈ ids then none else some r₀.RecommendCount := by
  have hrID : r₀.ID = j := by simpa using List.find?_some h
  by_cases hids : ids.isEmpty
  · have : ids = [] := by simpa using hids
    subst this
    have ht' : (batchDelete [] t).1 = t := rfl
    rw [ht', if_neg (by simp)]
    unfold countOf
    rw [h, Option.map_some']
  · have ht' : (batchDelete ids t).1 =
        { t with rows := t.rows.filter (fun r => !(ids.contains r.ID)) } := by
      simp [batchDelete, hids]
    rw [ht']
    unfold firstById at h
    unfold countOf firstById
    rw [find?_filter_of_id_det (fun r => !(ids.contains r.ID))
      (by intro r r' hrr; show (!(ids.contains r.ID)) = (!(ids.contains r'.ID)); rw [hrr])
      j t.rows r₀ h]
    by_cases hji : j ∈ ids
    · rw [if_neg (by simp [hrID]; exact hji), if_pos hji]
      rfl
    · rw [if_pos (by simp [hrID]; exact fun hc => hji (List.mem_of_elem_eq_true
        (by simpa using hc))), if_neg hji]
      rfl

/-- Below the int64 maximum, the wrapping increment is an ordinary `+1`. -/
theorem incInt64_of_lt_max (c : Int) (h1 : int64Min ≤ c) (h2 : c < int64Max) :
    incInt64 c = c + 1 := by
  unfold int64Min at h1
  unfold int64Max at h2
  unfold incInt64
  rw [Int.emod_eq_of_lt (by omega) (by omega)]
  omega

/-- At the int64 maximum, the wrapping increment lands on the minimum. -/
theorem incInt64_max : incInt64 int64Max = int64Min := by decide

/-! ## Claim theorems -/

/-- **C1.** For every table state, the sequence returned by `list` is a
permutation of the stored records sorted by `recommendCount` descending
with ties broken by `id` ascending, and every `search` result is sorted
the same way. -/
theorem list_and_search_sorted (t : Table) (q : String) :
    (list t).Pairwise (fun a b => b.RecommendCount < a.RecommendCount ∨
      (a.RecommendCount = b.RecommendCount ∧ a.ID ≤ b.ID)) ∧
    (list t).Perm t.rows ∧
    (search q t).Pairwise (fun a b => b.RecommendCount < a.RecommendCount ∨
      (a.RecommendCount = b.RecommendCount ∧ a.ID ≤ b.ID)) := by
  refine ⟨List.sorted_insertionSort spotLE t.rows,
    List.perm_insertionSort spotLE t.rows, ?_⟩
  unfold search
  by_cases hq : q = ""
  · rw [if_pos hq]
    exact List.sorted_insertionSort spotLE t.rows
  · rw [if_neg hq]
    exact List.sorted_insertionSort spotLE _

/-- **C6.** `create` appends exactly one new record with the supplied
field values and a zero recommendation counter, assigns it the storage's
next id, and leaves every pre-existing record in place unchanged; no
uniqueness check is involved (the statement holds for every table,
duplicates included). -/
theorem create_inserts_exactly_one (t : Table) (f : Fields) :
    (create f t).rows.length = t.rows.length + 1 ∧
    (create f t).rows.take t.rows.length = t.rows ∧
    (create f t).rows.getLast? = some (newSpot f t.nextId) ∧
    (newSpot f t.nextId).RecommendCount = 0 ∧
    (newSpot f t.nextId).ID = t.nextId ∧
    (newSpot f t.nextId).Name = f.name ∧
    (newSpot f t.nextId).Description = f.description ∧
    (newSpot f t.nextId).Ticket = f.ticket ∧
    (newSpot f t.nextId).Transport = f.transport ∧
    (newSpot f t.nextId).ImageURL = f.imageurl := by
  refine ⟨by simp [create], ?_, ?_, rfl, rfl, rfl, rfl, rfl, rfl, rfl⟩
  · exact List.take_left t.rows [newSpot f t.nextId]
  · show (t.rows ++ [newSpot f t.nextId]).getLast? = some (newSpot f t.nextId)
    exact List.getLast?_concat t.rows

/-- **C7.** `batchDelete` removes exactly the records whose id is in the
given set: the surviving rows are precisely those whose id is not listed
(so unknown ids are silently ignored and untargeted records keep their
place), an empty set is a no-op, and the outcome is never an error. -/
theorem batchDelete_removes_exactly (ids : List Nat) (t : Table) :
    (batchDelete ids t).2 = .ok ∧
    (batchDelete [] t).1 = t ∧
    (batchDelete ids t).1.rows = t.rows.filter (fun r => decide (r.ID ∉ ids)) ∧
    (batchDelete ids t).1.nextId = t.nextId := by
  refine ⟨rfl, rfl, ?_, ?_⟩
  · unfold batchDelete
    by_cases hids : ids.isEmpty
    · rw [if_pos hids]
      have h0 : ids = [] := by simpa using hids
      subst h0
      exact (List.filter_eq_self.mpr (by simp)).symm
    · rw [if_neg hids]
      refine List.filter_congr ?_
      intro x hx
      by_cases hxm : x.ID ∈ ids
      · simp [hxm, List.elem_eq_true_of_mem hxm]
      · simp [hxm]
  · unfold batchDelete
    by_cases hids : ids.isEmpty
    · rw [if_pos hids]
    · rw [if_neg hids]

/-- **C4** (amended). `recommend` never signals an error; on a missing
id it leaves the table completely unchanged; and on an existing id whose
stored counter is a valid int64 value below the type maximum it
increments exactly that record's counter by one and persists it. (At the
maximum the Go `int` increment wraps instead — see
`recommend_wraps_at_max`.) -/
theorem recommend_increments_or_ignores (t : Table) (i : Nat) :
    (recommend i t).2 = .ok ∧
    (firstById t i = none → (recommend i t).1 = t) ∧
    (∀ r, firstById t i = some r →
      int64Min ≤ r.RecommendCount → r.RecommendCount < int64Max →
      countOf (recommend i t).1 i = some (r.RecommendCount + 1) ∧
      (recommend i t).1.rows.length = t.rows.length) := by
  refine ⟨?_, ?_, ?_⟩
  · rcases h : firstById t i with _ | s <;> simp [recommend, h]
  · intro h
    simp [recommend, h]
  · intro r h hb1 hb2
    refine ⟨?_, ?_⟩
    · rw [countOf_recommend_of_some t i i r h, if_pos rfl,
        incInt64_of_lt_max r.RecommendCount hb1 hb2]
    · simp [recommend, h, saveSpot]

/-- **C4** (counterexample to the claim as stated). On the table whose
single record holds the int64 maximum, a completed `recommend` leaves
the counter at the int64 minimum — the Go increment wrapped, so the
counter was not increased by exactly 1. -/
theorem recommend_wraps_at_max :
    countOf maxTable 1 = some int64Max ∧
    countOf (recommend 1 maxTable).1 1 = some int64Min ∧
    int64Min ≠ int64Max + 1 := by
  refine ⟨?_, ?_, ?_⟩ <;> decide

/-- **C5.** `update` on a missing id reports `notFound` — an outcome
distinct from success — and leaves the table untouched, while the other
mutating operations (`recommend`, `delete`, `batchDelete`) always
report `ok`, making `update` the only operation that surfaces
`notFound`. -/
theorem update_sole_notFound (t : Table) (i j d : Nat) (f : Fields) (ids : List Nat)
    (h : firstById t i = none) :
    update i f t = (t, .notFound) ∧
    (recommend j t).2 = .ok ∧
    (deleteSpot d t).2 = .ok ∧
    (batchDelete ids t).2 = .ok ∧
    Outcome.notFound ≠ Outcome.ok := by
  refine ⟨by simp [update, h], ?_, rfl, rfl, by simp⟩
  rcases hj : firstById t j with _ | s <;> simp [recommend, hj]

/-- **C2.** `update` on an existing id applies partial-update semantics:
each non-empty supplied field replaces the stored value, each field
supplied as the empty string leaves the stored value unchanged, the id
and counter are untouched, other records survive, and the row count is
unchanged. -/
theorem update_applies_nonempty_fields (t : Table) (i : Nat) (f : Fields) (r : Spot)
    (h : firstById t i = some r) :
    (update i f t).2 = .ok ∧
    firstById (update i f t).1 i = some
      { ID := r.ID,
        Name := if f.name = "" then r.Name else f.name,
        Description := if f.description = "" then r.Description else f.description,
        Ticket := if f.ticket = "" then r.Ticket else f.ticket,
        Transport := if f.transport = "" then r.Transport else f.transport,
        RecommendCount := r.RecommendCount,
        ImageURL := if f.imageurl = "" then r.ImageURL else f.imageurl } ∧
    (∀ s ∈ t.rows, s.ID ≠ i → s ∈ (update i f t).1.rows) ∧
    (update i f t).1.rows.length = t.rows.length := by
  have hrID : r.ID = i := by simpa using List.find?_some h
  have ht' : (update i f t).1 =
      { t with rows := t.rows.map (fun x => if x.ID == i then applyUpdates f x else x) } := by
    simp [update, h]
  refine ⟨by simp [update, h], ?_, ?_, by rw [ht']; simp⟩
  · rw [ht']
    unfold firstById at h ⊢
    rw [find?_map_of_id_eq (fun x => if x.ID == i then applyUpdates f x else x)
      ?hg i t.rows]
    case hg =>
      intro x
      by_cases hb : (x.ID == i) = true
      · simp only [hb, if_true]
        rfl
      · simp only [Bool.not_eq_true] at hb
        simp [hb]
    rw [h, Option.map_some', if_pos (by simpa using hrID)]
    rfl
  · intro s hs hsne
    rw [ht']
    refine List.mem_map.mpr ⟨s, hs, ?_⟩
    rw [if_neg (by simpa using hsne)]

/-- **C3.** `search ""` coincides with `list`; for any query, the search
result is exactly the sub-sequence of `list` whose name or description
contains the query as a contiguous (case-sensitive in this embedding)
substring — same records, same order. -/
theorem search_is_filtered_list (q : String) (t : Table)
    (hd : (t.rows.map Spot.ID).Nodup) :
    search "" t = list t ∧
    search q t = (list t).filter (fun r => spotMatches q r) ∧
    (∀ r : Spot, spotMatches q r = true ↔
      ((∃ u v, r.Name.data = u ++ q.data ++ v) ∨
       (∃ u v, r.Description.data = u ++ q.data ++ v))) := by
  refine ⟨by simp [search, list], ?_, ?_⟩
  · by_cases hq : q = ""
    · subst hq
      show List.insertionSort spotLE t.rows = _
      exact (List.filter_eq_self.mpr (fun a _ => spotMatches_empty a)).symm
    · show search q t = (list t).filter (spotMatches q)
      rw [show search q t =
          List.insertionSort spotLE (t.rows.filter (fun r => spotMatches q r)) from by
        simp [search, hq]]
      exact insertionSort_filter_comm (spotMatches q) t.rows hd
  · intro r
    simp only [spotMatches, Bool.or_eq_true, subMatch_iff]

/-- **C8.** The claim fails on the code: the recommend handler's
read-increment-write is two separate storage calls with no transaction,
so it is **not** atomic. With the overlapped schedule "both handlers
`First` the row, then each `Save`s its local copy", two completed
recommend calls on the seeded one-row table leave the counter at 1 — one
update is lost — whereas the sequential (atomic) composition the claim
demands leaves it at 2. -/
theorem recommend_race_loses_update :
    ∃ s : Spot, recRead demoTable 1 = some s ∧
      countOf (recWrite (recWrite demoTable s) s) 1 = some 1 ∧
      countOf (recommend 1 ((recommend 1 demoTable).1)).1 1 = some 2 := by
  refine ⟨demoSpot1, ?_, ?_, ?_⟩ <;> decide

/-- **C9** (amended). No operation decreases a stored recommendation
counter that is a valid int64 value below the type maximum: whatever
such counter an id holds before `create`, `recommend`, `update`,
`delete` or `batchDelete`, the counter it holds afterwards (when the
record still exists) is at least as large; `update` in particular leaves
every counter exactly as it was. (At the int64 maximum the Go increment
wraps and the counter drops — see `recommend_decreases_at_max`.) -/
theorem recommendCount_never_decreases (t : Table) (i j : Nat) (f : Fields)
    (ids : List Nat) (c c' : Int) (h : countOf t j = some c) :
    (countOf (create f t) j = some c' → c ≤ c') ∧
    (int64Min ≤ c → c < int64Max →
      countOf (recommend i t).1 j = some c' → c ≤ c') ∧
    (countOf (update i f t).1 j = some c' → c ≤ c') ∧
    (countOf (deleteSpot i t).1 j = some c' → c ≤ c') ∧
    (countOf (batchDelete ids t).1 j = some c' → c ≤ c') ∧
    countOf (update i f t).1 j = some c := by
  obtain ⟨r₀, hr₀, hc⟩ := Option.map_eq_some'.mp h
  subst hc
  refine ⟨?_, ?_, ?_, ?_, ?_, ?_⟩
  · intro h'
    rw [countOf_create_of_some f t j r₀ hr₀] at h'
    exact le_of_eq (by injection h')
  · intro hb1 hb2 h'
    rw [countOf_recommend_of_some t i j r₀ hr₀] at h'
    have := (Option.some.injEq _ _).mp h'.symm
    by_cases hji : j = i
    · rw [if_pos hji, incInt64_of_lt_max r₀.RecommendCount hb1 hb2] at this
      omega
    · rw [if_neg hji] at this
      omega
  · intro h'
    rw [countOf_update_eq t i f j, h] at h'
    exact le_of_eq (by injection h')
  · intro h'
    rw [countOf_deleteSpot_of_some t i j r₀ hr₀] at h'
    by_cases hji : j = i
    · rw [if_pos hji] at h'
      cases h'
    · rw [if_neg hji] at h'
      exact le_of_eq (by injection h')
  · intro h'
    rw [countOf_batchDelete_of_some ids t j r₀ hr₀] at h'
    by_cases hji : j ∈ ids
    · rw [if_pos hji] at h'
      cases h'
    · rw [if_neg hji] at h'
      exact le_of_eq (by injection h')
  · rw [countOf_update_eq t i f j, h]

/-- **C9** (counterexample to the claim as stated). A stored counter can
decrease: on the table whose single record holds the int64 maximum, a
completed `recommend` drops the counter to the int64 minimum. -/
theorem recommend_decreases_at_max :
    countOf maxTable 1 = some int64Max ∧
    countOf (recommend 1 maxTable).1 1 = some int64Min ∧
    int64Min < int64Max := by
  refine ⟨?_, ?_, ?_⟩ <;> decide

/-- **C10.** On an existing id, `recommend` is frame-preserving: the
table keeps its next key and row count, every row whose id differs from
the target stays byte-for-byte at its position, and the target row
changes only in its counter (its id, name, description, ticket,
transport and image URL keep their prior values while the counter is
overwritten with the Go `int` increment of its prior value). -/
theorem recommend_changes_only_target_count (t : Table) (i : Nat) (r : Spot)
    (hd : (t.rows.map Spot.ID).Nodup) (h : firstById t i = some r) :
    (recommend i t).1.nextId = t.nextId ∧
    (recommend i t).1.rows.length = t.rows.length ∧
    (∀ k : Nat, ∀ x : Spot, t.rows[k]? = some x →
      (x.ID ≠ i → (recommend i t).1.rows[k]? = some x) ∧
      (x.ID = i → (recommend i t).1.rows[k]? =
        some { x with RecommendCount := incInt64 x.RecommendCount })) := by
  have hrID : r.ID = i := by simpa using List.find?_some h
  have hrmem : r ∈ t.rows := List.mem_of_find?_eq_some h
  have ht' : (recommend i t).1 =
      saveSpot t { r with RecommendCount := incInt64 r.RecommendCount } := by
    simp [recommend, h]
  refine ⟨by rw [ht']; rfl, by rw [ht']; simp [saveSpot], ?_⟩
  intro k x hx
  have hget : (recommend i t).1.rows[k]? =
      (t.rows[k]?).map (fun y =>
        if y.ID == ({ r with RecommendCount := incInt64 r.RecommendCount } : Spot).ID
        then ({ r with RecommendCount := incInt64 r.RecommendCount } : Spot) else y) := by
    rw [ht']
    exact List.getElem?_map _ t.rows k
  constructor
  · intro hne
    rw [hget, hx, Option.map_some',
      if_neg (show ¬ ((x.ID == ({ r with RecommendCount := incInt64 r.RecommendCount } : Spot).ID)
        = true) by simp only [beq_iff_eq]; show ¬ (x.ID = r.ID); rw [hrID]; exact hne)]
  · intro heq
    have hxr : x = r :=
      List.inj_on_of_nodup_map hd (List.getElem?_mem hx) hrmem (by rw [heq, hrID])
    subst hxr
    rw [hget, hx, Option.map_some', if_pos (by simp)]

/-! ## Concrete witnesses -/

/-- The hypotheses of the C2 theorem are satisfiable: on the demo table,
id 1 exists and the partial update applies. -/
theorem update_applies_nonempty_fields_witness :
    firstById demoTable 1 = some demoSpot1 ∧
      (update 1 demoFields demoTable).2 = .ok :=
  ⟨by decide,
    (update_applies_nonempty_fields demoTable 1 demoFields demoSpot1 (by decide)).1⟩

/-- The hypotheses of the C3 theorem are satisfiable: the demo table has
pairwise-distinct ids and an empty search equals the listing. -/
theorem search_is_filtered_list_witness :
    (demoTable.rows.map Spot.ID).Nodup ∧ search "" demoTable = list demoTable :=
  ⟨by decide, (search_is_filtered_list "Lake" demoTable (by decide)).1⟩

/-- The inner hypotheses of the C4 theorem are satisfiable: id 7 is
absent from the demo table and recommending it changes nothing, while
id 1 exists with its counter 0 inside the int64 range, so recommending
it stores counter 1. -/
theorem recommend_increments_or_ignores_witness :
    (firstById demoTable 7 = none ∧ (recommend 7 demoTable).1 = demoTable) ∧
    (firstById demoTable 1 = some demoSpot1 ∧
      int64Min ≤ demoSpot1.RecommendCount ∧
      demoSpot1.RecommendCount < int64Max ∧
      countOf (recommend 1 demoTable).1 1 = some (demoSpot1.RecommendCount + 1)) :=
  ⟨⟨by decide, (recommend_increments_or_ignores demoTable 7).2.1 (by decide)⟩,
   ⟨by decide, by decide, by decide,
    ((recommend_increments_or_ignores demoTable 1).2.2 demoSpot1 (by decide)
      (by decide) (by decide)).1⟩⟩

/-- The hypothesis of the C5 theorem is satisfiable: id 9 is absent from
the demo table and updating it reports `notFound` with no change. -/
theorem update_sole_notFound_witness :
    firstById demoTable 9 = none ∧
      update 9 demoFields demoTable = (demoTable, .notFound) :=
  ⟨by decide, (update_sole_notFound demoTable 9 1 2 demoFields [2] (by decide)).1⟩

/-- The hypothesis of the C9 theorem is satisfiable: id 1 holds counter
0 in the demo table and an update to id 2 leaves it at 0. -/
theorem recommendCount_never_decreases_witness :
    countOf demoTable 1 = some 0 ∧
      countOf (update 2 demoFields demoTable).1 1 = some 0 :=
  ⟨by decide,
    (recommendCount_never_decreases demoTable 2 1 demoFields [2] 0 0
      (by decide)).2.2.2.2.2⟩

/-- The hypotheses of the C10 theorem are satisfiable: the demo table
has distinct ids, id 1 exists, and recommending it keeps the next key. -/
theorem recommend_changes_only_target_count_witness :
    ((demoTable.rows.map Spot.ID).Nodup ∧ firstById demoTable 1 = some demoSpot1) ∧
      (recommend 1 demoTable).1.nextId = demoTable.nextId :=
  ⟨⟨by decide, by decide⟩,
    (recommend_changes_only_target_count demoTable 1 demoSpot1 (by decide) (by decide)).1⟩
